import Mathlib

/-!
Shallow embedding of the core subsystems of a small Vulkan rendering engine:
the device-memory allocator wrapper (`allocate_buffer` / `allocate_image`),
the growable GPU buffer (`EngineBuffer::new` / `EngineBuffer::fill`), and the
handle-indexed instance store (`Model<V, I>` with `insert`, `remove`,
`swap_by_handle`, `swap_by_index`, `make_visible`, `make_invisible`, `draw`).

Modelling conventions:
- `HashMap<usize, usize>` is modelled as a function `Nat → Option Nat`
  (`HMap`), with `insert` overwriting and `remove` deleting a key.
- `Vec<T>` is modelled as `List T`; `Vec::swap` is `vecSwap`, which returns
  `none` exactly when Rust would panic (an index out of bounds).
- Paths on which the Rust code panics (slice indexing out of bounds,
  `Option::unwrap` on `None`, `usize` underflow in debug builds) are modelled
  by a distinguished `panic` outcome; fallible operations returning
  `Result<_, E>` are modelled by `Out E _`, which separates `ok`, `err` and
  `panic` outcomes.
- GPU-side objects (buffer handles, allocations) are modelled by numeric ids
  drawn from a fresh-id counter; mapped-memory writes performed by `fill` are
  recorded as a list of copied payloads (each entry is one full memcpy).
- Element types `T` written through `fill` are flattened to bytes: a payload
  is a `List Nat` of bytes, so `data.len() * size_of::<T>()` is the payload
  length.
-/

namespace LearningVulkan

/-- Model of `std::collections::HashMap<usize, usize>`. -/
def HMap : Type := Nat → Option Nat

/-- The empty map (`HashMap::new`). -/
def hmEmpty : HMap := fun _ => none

/-- `HashMap::get` (by key). -/
def hmGet (m : HMap) (k : Nat) : Option Nat := m k

/-- `HashMap::insert` (overwrites the key if present). -/
def hmInsert (m : HMap) (k v : Nat) : HMap :=
  fun x => if x = k then some v else m x

/-- `HashMap::remove` (drops the key). -/
def hmRemove (m : HMap) (k : Nat) : HMap :=
  fun x => if x = k then none else m x

/-- The store's error type (`struct InvalidHandle;`). -/
inductive InvalidHandle : Type where
  | mk
  deriving DecidableEq

/-- Outcome of a fallible Rust operation: `ok` / `err` mirror
`Result::Ok` / `Result::Err`; `panic` marks a path on which the Rust code
panics (out-of-bounds indexing, `unwrap` on `None`, `usize` underflow). -/
inductive Out (ε α : Type) : Type where
  | panic
  | err (e : ε)
  | ok (a : α)

/-- The `ok` payload of an outcome, if any. -/
def Out.okVal? {ε α : Type} : Out ε α → Option α
  | .ok a => some a
  | _ => none

/-- Whether the outcome is an `err`. -/
def Out.isErr {ε α : Type} : Out ε α → Bool
  | .err _ => true
  | _ => false

/-- `Vec::swap(i, j)`: exchanges the elements at `i` and `j`;
`none` models the Rust panic when either index is out of bounds. -/
def vecSwap {α : Type} (l : List α) (i j : Nat) : Option (List α) :=
  match l[i]?, l[j]? with
  | some a, some b => some ((l.set i b).set j a)
  | _, _ => none

/-! ## Growable GPU buffer (`EngineBuffer`, src/engine/buffer.rs) -/

/-- `EngineBuffer`: a raw buffer handle, its (optional) allocation, the
capacity in bytes, and the construction-time usage/locality flags.
Handles, allocations and flags are abstracted to numeric ids. -/
structure EngineBuffer : Type where
  buffer : Nat
  allocation : Option Nat
  size_in_bytes : Nat
  usage : Nat
  memory_usage : Nat
  deriving DecidableEq

/-- `EngineBuffer::new`: creates a buffer resource and an allocation and
binds them.  In the source every internal failure is `unwrap`ed away
(`create_buffer`, `allocate` and `bind_buffer_memory` all panic on failure),
so the function always returns a buffer whose `allocation` is `Some`.
`next` is the fresh-id counter supplying the buffer handle and allocation
id; the updated counter is returned alongside. -/
def EngineBuffer.new (next : Nat) (size_in_bytes usage memory_usage : Nat) :
    EngineBuffer × Nat :=
  ({ buffer := next
     allocation := some (next + 1)
     size_in_bytes := size_in_bytes
     usage := usage
     memory_usage := memory_usage }, next + 2)

/-- Result of `EngineBuffer::fill`: either a panic, or the updated buffer,
the updated fresh-id counter, and the list of memcpys performed (each entry
one full copied payload, in order). -/
inductive FillRes : Type where
  | panic
  | ok (b : EngineBuffer) (next : Nat) (writes : List (List Nat))
  deriving DecidableEq

/-- Capacity of the buffer produced by a `fill`, if it returned `Ok`. -/
def FillRes.capacity? : FillRes → Option Nat
  | .ok b _ _ => some b.size_in_bytes
  | .panic => none

/-- Whether a `fill` returned `Ok`. -/
def FillRes.isOk : FillRes → Bool
  | .ok _ _ _ => true
  | .panic => false

/-- `EngineBuffer::fill`: if the payload exceeds the capacity, free the
current allocation (`take().unwrap()` — panics when `allocation` is `None`),
destroy the buffer, and replace `self` with a brand-new buffer of exactly the
payload's size; then, if an allocation is present, copy the whole payload
into mapped memory at offset 0.  `data` is the payload in bytes. -/
def EngineBuffer.fill (b : EngineBuffer) (next : Nat) (data : List Nat) :
    FillRes :=
  let bytes_to_write := data.length
  if b.size_in_bytes < bytes_to_write then
    match b.allocation with
    | none => .panic
    | some _ =>
      let p := EngineBuffer.new next bytes_to_write b.usage b.memory_usage
      .ok p.1 p.2 [data]
  else
    match b.allocation with
    | some _ => .ok b next [data]
    | none => .ok b next []

/-- A sequence of `fill` calls, threading the buffer and the id counter and
concatenating the performed memcpys; panics propagate. -/
def fillSeq (b : EngineBuffer) (next : Nat) : List (List Nat) → FillRes
  | [] => .ok b next []
  | d :: ds =>
    match EngineBuffer.fill b next d with
    | .panic => .panic
    | .ok b1 n1 w1 =>
      match fillSeq b1 n1 ds with
      | .panic => .panic
      | .ok b2 n2 w2 => .ok b2 n2 (w1 ++ w2)

/-! ## Allocator wrapper (`VkAllocator`, src/engine/allocator.rs) -/

/-- Failure injection for the device / allocator calls that
`allocate_buffer` and `allocate_image` make. -/
structure Device : Type where
  createBufferOk : Bool
  createImageOk : Bool
  allocateOk : Bool
  bindOk : Bool
  deriving DecidableEq

/-- Ledger of live GPU objects: fresh-id counter, live buffer handles,
live image handles, and live (unfreed) allocations. -/
structure GpuState : Type where
  nextId : Nat
  buffers : List Nat
  images : List Nat
  allocs : List Nat
  deriving DecidableEq

/-- `VkAllocator::allocate_buffer`: create the buffer (`?` on failure),
query requirements, allocate (`?` on failure), bind (`?` on failure).
Each `?` propagates the error directly; the ledger records which objects
are live when the function returns.  Returns the final ledger and, on
success, the buffer handle and allocation id. -/
def allocate_buffer (d : Device) (s : GpuState) :
    GpuState × Option (Nat × Nat) :=
  if d.createBufferOk = false then (s, none)
  else
    let buf := s.nextId
    let s1 : GpuState :=
      { s with nextId := s.nextId + 1, buffers := buf :: s.buffers }
    if d.allocateOk = false then (s1, none)
    else
      let alc := s1.nextId
      let s2 : GpuState :=
        { s1 with nextId := s1.nextId + 1, allocs := alc :: s1.allocs }
      if d.bindOk = false then (s2, none)
      else (s2, some (buf, alc))

/-- `VkAllocator::allocate_image`: same shape as `allocate_buffer`, for
image resources. -/
def allocate_image (d : Device) (s : GpuState) :
    GpuState × Option (Nat × Nat) :=
  if d.createImageOk = false then (s, none)
  else
    let img := s.nextId
    let s1 : GpuState :=
      { s with nextId := s.nextId + 1, images := img :: s.images }
    if d.allocateOk = false then (s1, none)
    else
      let alc := s1.nextId
      let s2 : GpuState :=
        { s1 with nextId := s1.nextId + 1, allocs := alc :: s1.allocs }
      if d.bindOk = false then (s2, none)
      else (s2, some (img, alc))

/-! ## Handle-indexed instance store (`Model<V, I>`, src/engine/model.rs) -/

/-- `Model<V, I>`: vertex/index data, the handle→index map, the parallel
dense arrays of handles and instance records, the visible/invisible
boundary, the next-handle counter, and the three optional GPU buffers. -/
structure Model (V I : Type) : Type where
  vertex_data : List V
  index_data : List Nat
  handle_to_index : HMap
  handles : List Nat
  instances : List I
  first_invisible : Nat
  next_handle : Nat
  vertex_buffer : Option EngineBuffer
  index_buffer : Option EngineBuffer
  instance_buffer : Option EngineBuffer

/-- A store with no instances and no buffers (the container part shared by
all the constructors `quad` / `cube` / `icosahedron`). -/
def Model.empty (V I : Type) : Model V I :=
  { vertex_data := []
    index_data := []
    handle_to_index := hmEmpty
    handles := []
    instances := []
    first_invisible := 0
    next_handle := 0
    vertex_buffer := none
    index_buffer := none
    instance_buffer := none }

/-- `Model::get`: map lookup, then dense-array index. -/
def Model.get {V I : Type} (st : Model V I) (handle : Nat) : Option I :=
  match hmGet st.handle_to_index handle with
  | some index => st.instances[index]?
  | none => none

/-- `Model::swap_by_index`: returns immediately when the indices are equal;
otherwise reads both handles (panic when out of bounds), swaps the two dense
arrays, and inserts the two map entries exactly as the source does:
`insert(index1, handle2)` and `insert(index2, handle1)` — the keys are the
dense indices. -/
def Model.swap_by_index {V I : Type} (st : Model V I) (index1 index2 : Nat) :
    Option (Model V I) :=
  if index1 = index2 then some st
  else
    match st.handles[index1]?, st.handles[index2]? with
    | some handle1, some handle2 =>
      match vecSwap st.handles index1 index2,
            vecSwap st.instances index1 index2 with
      | some hs, some is2 =>
        some { st with
               handles := hs
               instances := is2
               handle_to_index :=
                 hmInsert (hmInsert st.handle_to_index index1 handle2)
                   index2 handle1 }
      | _, _ => none
    | _, _ => none

/-- `Model::swap_by_handle`: `Ok(())` when the two handles are equal;
`InvalidHandle` when either is missing from the map; otherwise swaps the
dense arrays at the two looked-up indices and inserts the two map entries
exactly as the source does: `insert(i1, h2)` and `insert(i2, h1)`. -/
def Model.swap_by_handle {V I : Type} (st : Model V I) (h1 h2 : Nat) :
    Out InvalidHandle (Model V I) :=
  if h1 = h2 then .ok st
  else
    match hmGet st.handle_to_index h1, hmGet st.handle_to_index h2 with
    | some i1, some i2 =>
      match vecSwap st.handles i1 i2, vecSwap st.instances i1 i2 with
      | some hs, some is2 =>
        .ok { st with
              handles := hs
              instances := is2
              handle_to_index :=
                hmInsert (hmInsert st.handle_to_index i1 h2) i2 h1 }
      | _, _ => .panic
    | _, _ => .err InvalidHandle.mk

/-- `Model::is_visible`: a handle is visible when its mapped index lies
before the `first_invisible` boundary. -/
def Model.is_visible {V I : Type} (st : Model V I) (handle : Nat) :
    Out InvalidHandle Bool :=
  match hmGet st.handle_to_index handle with
  | some index => .ok (decide (index < st.first_invisible))
  | none => .err InvalidHandle.mk

/-- `Model::make_visible`: no-op when the instance is already visible;
otherwise swap its index with `first_invisible` and grow the boundary. -/
def Model.make_visible {V I : Type} (st : Model V I) (handle : Nat) :
    Out InvalidHandle (Model V I) :=
  match hmGet st.handle_to_index handle with
  | some index =>
    if index < st.first_invisible then .ok st
    else
      match Model.swap_by_index st index st.first_invisible with
      | some st2 => .ok { st2 with first_invisible := st2.first_invisible + 1 }
      | none => .panic
  | none => .err InvalidHandle.mk

/-- `Model::make_invisible`: no-op when the instance is already invisible;
otherwise swap its index with `first_invisible - 1` and shrink the
boundary. -/
def Model.make_invisible {V I : Type} (st : Model V I) (handle : Nat) :
    Out InvalidHandle (Model V I) :=
  match hmGet st.handle_to_index handle with
  | some index =>
    if st.first_invisible ≤ index then .ok st
    else
      match Model.swap_by_index st index (st.first_invisible - 1) with
      | some st2 => .ok { st2 with first_invisible := st2.first_invisible - 1 }
      | none => .panic
  | none => .err InvalidHandle.mk

/-- `Model::insert`: assign `next_handle` and bump it, append the record and
the handle to the dense arrays, and register the map entry
`handle ↦ index`.  Returns the new handle and the updated store. -/
def Model.insert {V I : Type} (st : Model V I) (element : I) :
    Nat × Model V I :=
  let handle := st.next_handle
  let index := st.instances.length
  (handle,
    { st with
      next_handle := st.next_handle + 1
      instances := st.instances ++ [element]
      handles := st.handles ++ [handle]
      handle_to_index := hmInsert st.handle_to_index handle index })

/-- `Model::remove`: look the handle up; if its index is visible, swap it to
`first_invisible - 1` and shrink the boundary; then swap index
`first_invisible` with the last index, pop the handle array, drop the map
entry, and pop and return the last instance record.  The explicit
length-zero guard models the `usize` underflow / `unwrap` panic of
`self.instances.len() - 1` / `pop().unwrap()` on an empty store. -/
def Model.remove {V I : Type} (st : Model V I) (handle : Nat) :
    Out InvalidHandle (I × Model V I) :=
  match hmGet st.handle_to_index handle with
  | some index =>
    let step1 : Option (Model V I) :=
      if index < st.first_invisible then
        match Model.swap_by_index st index (st.first_invisible - 1) with
        | some st2 =>
          some { st2 with first_invisible := st2.first_invisible - 1 }
        | none => none
      else some st
    match step1 with
    | none => .panic
    | some st2 =>
      if st2.instances.length = 0 then .panic
      else
        match Model.swap_by_index st2 st2.first_invisible
            (st2.instances.length - 1) with
        | none => .panic
        | some st3 =>
          match st3.instances.getLast? with
          | none => .panic
          | some last =>
            .ok (last,
              { st3 with
                handles := st3.handles.dropLast
                handle_to_index := hmRemove st3.handle_to_index handle
                instances := st3.instances.dropLast })
  | none => .err InvalidHandle.mk

/-- A command recorded by `Model::draw` into the command buffer. -/
inductive Cmd : Type where
  | bindVertexBuffers (first_binding : Nat) (buffer : Nat)
  | bindIndexBuffer (buffer : Nat) (offset : Nat)
  | drawIndexed (index_count instance_count first_index vertex_offset
      first_instance : Nat)
  deriving DecidableEq

/-- `Model::draw`: when all three buffers are present and
`first_invisible > 0`, bind the vertex, instance and index buffers and issue
one indexed draw with `index_data.len() as u32` indices and
`first_invisible as u32` instances (the `as u32` casts truncate mod 2^32);
otherwise record nothing. -/
def Model.draw {V I : Type} (st : Model V I) : List Cmd :=
  match st.vertex_buffer with
  | none => []
  | some vb =>
    match st.index_buffer with
    | none => []
    | some ib =>
      match st.instance_buffer with
      | none => []
      | some inb =>
        if 0 < st.first_invisible then
          [ .bindVertexBuffers 0 vb.buffer,
            .bindVertexBuffers 1 inb.buffer,
            .bindIndexBuffer ib.buffer 0,
            .drawIndexed (st.index_data.length % 2 ^ 32)
              (st.first_invisible % 2 ^ 32) 0 0 0 ]
        else []

/-! ## Specification predicates -/

/-- Map consistency, as the spec states it: `map[handles[i]] == i` for every
dense index `i`. -/
def mapConsistent {V I : Type} (st : Model V I) : Prop :=
  ∀ i, i < st.handles.length →
    (st.handles[i]?.bind (hmGet st.handle_to_index)) = some i

instance {V I : Type} (st : Model V I) : Decidable (mapConsistent st) := by
  unfold mapConsistent
  infer_instance

/-- Well-formedness of a store used as a precondition: every map entry
points at the dense slot holding its handle, the two dense arrays have equal
length, and the visibility boundary is within bounds. -/
def WFModel {V I : Type} (st : Model V I) : Prop :=
  (∀ h i, hmGet st.handle_to_index h = some i → st.handles[i]? = some h) ∧
  st.instances.length = st.handles.length ∧
  st.first_invisible ≤ st.handles.length

/-! ## Sequences of store operations -/

/-- One store operation in a sequence: an insert or a removal. -/
inductive SOp (I : Type) : Type where
  | ins (record : I)
  | rem (handle : Nat)

/-- One step over (store, chronological list of issued handles,
chronological list of successfully removed handles).  An `Err` from `remove`
leaves the store unchanged; a panic aborts the run (`none`). -/
def stepTr {V I : Type} (acc : Model V I × List Nat × List Nat) (op : SOp I) :
    Option (Model V I × List Nat × List Nat) :=
  match op with
  | .ins x =>
    let p := Model.insert acc.1 x
    some (p.2, acc.2.1 ++ [p.1], acc.2.2)
  | .rem h =>
    match Model.remove acc.1 h with
    | .ok p => some (p.2, acc.2.1, acc.2.2 ++ [h])
    | .err _ => some acc
    | .panic => none

/-- Run a sequence of store operations, threading the trace. -/
def runTr {V I : Type} (acc : Model V I × List Nat × List Nat) :
    List (SOp I) → Option (Model V I × List Nat × List Nat)
  | [] => some acc
  | op :: ops => (stepTr acc op).bind (fun a => runTr a ops)

/-- Invariant tying a store to its trace: dense handles are distinct and
below `next_handle`, the dense array is no longer than the number of handles
ever issued, and every key of the handle map is below `next_handle`. -/
def StoreInv {V I : Type} (st : Model V I) : Prop :=
  st.handles.Nodup ∧
  (∀ h ∈ st.handles, h < st.next_handle) ∧
  st.handles.length ≤ st.next_handle ∧
  (∀ k v, hmGet st.handle_to_index k = some v → k < st.next_handle)

/-- Invariant carried along a run: the store invariant holds, the issued
handles are exactly `0, 1, ..., next_handle - 1` in order, and every removed
handle was issued. -/
def TraceInv {V I : Type} (acc : Model V I × List Nat × List Nat) : Prop :=
  StoreInv acc.1 ∧ acc.2.1 = List.range acc.1.next_handle ∧
    acc.2.2 ⊆ acc.2.1

/-! ## Concrete inputs used by the individual claims -/

/-- C1 input: fresh store, three inserts, then `swap_by_handle(0, 1)`
followed by `swap_by_handle(0, 2)`. -/
def stC1 : Option (Model Nat Nat) :=
  let st3 := ((((Model.empty Nat Nat).insert 10).2.insert 20).2.insert 30).2
  (Model.swap_by_handle st3 0 1).okVal?.bind
    (fun st4 => (Model.swap_by_handle st4 0 2).okVal?)

/-- C2 input: fresh store with three inserted records 10, 20, 30
(handles 0, 1, 2, all invisible). -/
def stC2 : Model Nat Nat :=
  ((((Model.empty Nat Nat).insert 10).2.insert 20).2.insert 30).2

/-- C7 input: a consistent store (three records, handle 0 at dense index 1,
handle 1 at index 0, handle 2 at index 2). -/
def stC7 : Model Nat Nat :=
  { vertex_data := []
    index_data := []
    handle_to_index := hmInsert (hmInsert (hmInsert hmEmpty 0 1) 1 0) 2 2
    handles := [1, 0, 2]
    instances := [20, 10, 30]
    first_invisible := 0
    next_handle := 3
    vertex_buffer := none
    index_buffer := none
    instance_buffer := none }

/-- C8 witness input: two records, handle 0 visible, handle 1 invisible. -/
def stC8 : Model Nat Nat :=
  { vertex_data := []
    index_data := []
    handle_to_index := hmInsert (hmInsert hmEmpty 0 0) 1 1
    handles := [0, 1]
    instances := [100, 200]
    first_invisible := 1
    next_handle := 2
    vertex_buffer := none
    index_buffer := none
    instance_buffer := none }

/-- C4 counterexample input: a buffer built with initial capacity 10. -/
def bC4cex : EngineBuffer := (EngineBuffer.new 0 10 0 0).1

/-- C4 witness input: a buffer built with initial capacity 2. -/
def bC4wit : EngineBuffer := (EngineBuffer.new 0 2 0 0).1

/-- C4 witness output: the buffer after filling 1 byte then 3 bytes. -/
def bC4wit2 : EngineBuffer :=
  { buffer := 2, allocation := some 3, size_in_bytes := 3,
    usage := 0, memory_usage := 0 }

/-- C5 counterexample input: capacity 10 but no allocation. -/
def bC5cex : EngineBuffer :=
  { buffer := 0, allocation := none, size_in_bytes := 10,
    usage := 0, memory_usage := 0 }

/-- C5 witness input: a live buffer of capacity 2. -/
def bC5wit : EngineBuffer := (EngineBuffer.new 0 2 0 0).1

/-- C10 counterexample input: capacity 2 and no allocation, so a 3-byte
fill takes the grow path and unwraps the missing allocation. -/
def bC10cex : EngineBuffer :=
  { buffer := 0, allocation := none, size_in_bytes := 2,
    usage := 0, memory_usage := 0 }

/-- C10 witness input: capacity 5 and no allocation. -/
def bC10wit : EngineBuffer :=
  { buffer := 0, allocation := none, size_in_bytes := 5,
    usage := 0, memory_usage := 0 }

/-- C9 witness input: a store with all buffers present but zero visible
instances. -/
def stC9empty : Model Nat Nat :=
  { Model.empty Nat Nat with
    vertex_buffer := some (EngineBuffer.new 0 4 0 0).1
    index_buffer := some (EngineBuffer.new 2 4 0 0).1
    instance_buffer := some (EngineBuffer.new 4 4 0 0).1 }

/-- C9 witness input: a store with all buffers present, six indices, and
one visible instance. -/
def stC9draw : Model Nat Nat :=
  { vertex_data := [0, 0, 0, 0]
    index_data := [0, 2, 1, 1, 2, 3]
    handle_to_index := hmInsert hmEmpty 0 0
    handles := [0]
    instances := [7]
    first_invisible := 1
    next_handle := 1
    vertex_buffer := some (EngineBuffer.new 0 4 0 0).1
    index_buffer := some (EngineBuffer.new 2 4 0 0).1
    instance_buffer := some (EngineBuffer.new 4 4 0 0).1 }

/-- C6 witness input: two inserts, a removal, another insert. -/
def opsC6 : List (SOp Nat) := [.ins 5, .ins 6, .rem 0, .ins 7]

/-- C6 witness run result. -/
def accC6 : Model Nat Nat × List Nat × List Nat :=
  (runTr (Model.empty Nat Nat, [], []) opsC6).getD (Model.empty Nat Nat, [], [])

/-! ## Helper lemmas about `vecSwap` -/

/-- Replacing the `m`-th element of `xs` by `x` while consing the old
`m`-th element in front is a permutation of consing `x` in front. -/
theorem cons_set_perm {α : Type} :
    ∀ (xs : List α) (m : Nat) (x b : α), xs[m]? = some b →
      List.Perm (b :: xs.set m x) (x :: xs) := by
  intro xs
  induction xs with
  | nil => intro m x b h; simp at h
  | cons y ys ih =>
    intro m x b h
    cases m with
    | zero =>
      simp at h
      subst h
      exact List.Perm.swap x y ys
    | succ k =>
      simp at h
      have hperm := ih k x b h
      show List.Perm (b :: y :: ys.set k x) (x :: y :: ys)
      exact ((List.Perm.swap y b _).trans (List.Perm.cons y hperm)).trans
        (List.Perm.swap x y ys)

/-- A successful `vecSwap` produces a permutation of the input list. -/
theorem vecSwap_perm {α : Type} :
    ∀ (l : List α) (i j : Nat) (l2 : List α), vecSwap l i j = some l2 →
      List.Perm l2 l := by
  intro l
  induction l with
  | nil => intro i j l2 h; simp [vecSwap] at h
  | cons x xs ih =>
    intro i j l2 h
    cases i with
    | zero =>
      cases j with
      | zero =>
        simp [vecSwap] at h
        subst h
        exact List.Perm.refl _
      | succ k =>
        cases hb : xs[k]? with
        | none => simp [vecSwap, hb] at h
        | some b =>
          simp [vecSwap, hb] at h
          subst h
          exact cons_set_perm xs k x b hb
    | succ m =>
      cases j with
      | zero =>
        cases ha : xs[m]? with
        | none => simp [vecSwap, ha] at h
        | some a =>
          simp [vecSwap, ha] at h
          subst h
          exact cons_set_perm xs m x a ha
      | succ k =>
        cases ha : xs[m]? with
        | none => simp [vecSwap, ha] at h
        | some a =>
          cases hb : xs[k]? with
          | none => simp [vecSwap, ha, hb] at h
          | some b =>
            simp [vecSwap, ha, hb] at h
            subst h
            have htail : vecSwap xs m k = some ((xs.set m b).set k a) := by
              simp [vecSwap, ha, hb]
            exact List.Perm.cons x (ih m k _ htail)

/-- Pointwise description of a successful `vecSwap`. -/
theorem vecSwap_spec {α : Type} (l : List α) (i j : Nat) (l2 : List α)
    (h : vecSwap l i j = some l2) :
    l2[i]? = l[j]? ∧ l2[j]? = l[i]? ∧
    (∀ k, k ≠ i → k ≠ j → l2[k]? = l[k]?) ∧ l2.length = l.length := by
  unfold vecSwap at h
  cases ha : l[i]? with
  | none => rw [ha] at h; simp at h
  | some a =>
    cases hb : l[j]? with
    | none => rw [ha, hb] at h; simp at h
    | some b =>
      rw [ha, hb] at h
      simp at h
      subst h
      have hi : i < l.length := (List.getElem?_eq_some.mp ha).1
      have hj : j < l.length := (List.getElem?_eq_some.mp hb).1
      have hj2 : j < (l.set i b).length := by simpa using hj
      have hseteq : ((l.set i b).set j a)[j]? = some a :=
        List.getElem?_set_self hj2
      refine ⟨?_, ?_, ?_, ?_⟩
      · by_cases hij : i = j
        · subst hij
          rw [hseteq]
          rw [ha] at hb
          exact hb
        · rw [List.getElem?_set_ne (fun hji => hij hji.symm),
            List.getElem?_set_self (by simpa using hi)]
      · rw [hseteq]
      · intro k hki hkj
        rw [List.getElem?_set_ne (fun hjk => hkj hjk.symm),
          List.getElem?_set_ne (fun hik => hki hik.symm)]
      · simp

/-- `vecSwap` succeeds on in-bounds indices. -/
theorem vecSwap_exists {α : Type} (l : List α) (i j : Nat)
    (hi : i < l.length) (hj : j < l.length) :
    ∃ l2, vecSwap l i j = some l2 := by
  unfold vecSwap
  rw [List.getElem?_eq_getElem hi, List.getElem?_eq_getElem hj]
  exact ⟨_, rfl⟩

/-! ## Helper lemmas about the store operations -/

/-- A successful `swap_by_index` permutes both dense arrays, keeps the
boundary, the counter and the auxiliary fields, and only adds map entries
whose key is one of the two (in-bounds) dense indices. -/
theorem swap_by_index_perm {V I : Type} (st : Model V I) (i j : Nat)
    (st2 : Model V I) (h : Model.swap_by_index st i j = some st2) :
    List.Perm st2.handles st.handles ∧
    List.Perm st2.instances st.instances ∧
    st2.first_invisible = st.first_invisible ∧
    st2.next_handle = st.next_handle ∧
    (∀ k v, hmGet st2.handle_to_index k = some v →
      (∃ v2, hmGet st.handle_to_index k = some v2) ∨
        k < st.handles.length) := by
  unfold Model.swap_by_index at h
  by_cases hij : i = j
  · rw [if_pos hij] at h
    simp at h
    subst h
    exact ⟨List.Perm.refl _, List.Perm.refl _, rfl, rfl,
      fun k v hk => Or.inl ⟨v, hk⟩⟩
  · rw [if_neg hij] at h
    cases h1 : st.handles[i]? with
    | none => rw [h1] at h; simp at h
    | some handle1 =>
      cases h2 : st.handles[j]? with
      | none => rw [h1, h2] at h; simp at h
      | some handle2 =>
        rw [h1, h2] at h
        cases hsw1 : vecSwap st.handles i j with
        | none => rw [hsw1] at h; simp at h
        | some hs =>
          cases hsw2 : vecSwap st.instances i j with
          | none => rw [hsw1, hsw2] at h; simp at h
          | some is2 =>
            rw [hsw1, hsw2] at h
            simp at h
            subst h
            have hi : i < st.handles.length := (List.getElem?_eq_some.mp h1).1
            have hj : j < st.handles.length := (List.getElem?_eq_some.mp h2).1
            refine ⟨vecSwap_perm _ _ _ _ hsw1, vecSwap_perm _ _ _ _ hsw2,
              rfl, rfl, ?_⟩
            intro k v hk
            simp only [hmGet, hmInsert] at hk
            by_cases hkj : k = j
            · exact Or.inr (hkj ▸ hj)
            · rw [if_neg hkj] at hk
              by_cases hki : k = i
              · exact Or.inr (hki ▸ hi)
              · rw [if_neg hki] at hk
                exact Or.inl ⟨v, hk⟩

/-- On in-bounds indices over equal-length dense arrays, `swap_by_index`
succeeds and exchanges exactly the two positions in both arrays. -/
theorem swap_by_index_ok {V I : Type} (st : Model V I) (i j : Nat)
    (hi : i < st.handles.length) (hj : j < st.handles.length)
    (hlen : st.instances.length = st.handles.length) :
    ∃ st2, Model.swap_by_index st i j = some st2 ∧
      st2.handles[i]? = st.handles[j]? ∧
      st2.handles[j]? = st.handles[i]? ∧
      st2.instances[i]? = st.instances[j]? ∧
      st2.instances[j]? = st.instances[i]? ∧
      (∀ k, k ≠ i → k ≠ j → st2.handles[k]? = st.handles[k]? ∧
        st2.instances[k]? = st.instances[k]?) ∧
      st2.handles.length = st.handles.length ∧
      st2.instances.length = st.instances.length ∧
      st2.first_invisible = st.first_invisible ∧
      st2.next_handle = st.next_handle := by
  by_cases hij : i = j
  · subst hij
    refine ⟨st, ?_, rfl, rfl, rfl, rfl, fun k _ _ => ⟨rfl, rfl⟩,
      rfl, rfl, rfl, rfl⟩
    unfold Model.swap_by_index
    rw [if_pos rfl]
  · obtain ⟨hs, hswh⟩ := vecSwap_exists st.handles i j hi hj
    obtain ⟨is2, hswi⟩ :=
      vecSwap_exists st.instances i j (hlen ▸ hi) (hlen ▸ hj)
    obtain ⟨hh1, hh2, hh3, hh4⟩ := vecSwap_spec _ _ _ _ hswh
    obtain ⟨hi1, hi2, hi3, hi4⟩ := vecSwap_spec _ _ _ _ hswi
    refine ⟨{ st with
              handles := hs
              instances := is2
              handle_to_index :=
                hmInsert (hmInsert st.handle_to_index i (st.handles[j]))
                  j (st.handles[i]) }, ?_, hh1, hh2, hi1, hi2,
      fun k hki hkj => ⟨hh3 k hki hkj, hi3 k hki hkj⟩, hh4, hi4, rfl, rfl⟩
    unfold Model.swap_by_index
    rw [if_neg hij, List.getElem?_eq_getElem hi, List.getElem?_eq_getElem hj,
      hswh, hswi]

/-- A successful `remove` keeps `next_handle`, leaves the dense handle
array equal to a permutation of the old one with its last element dropped,
only ever adds map entries keyed by an in-bounds dense index, and implies
the handle was present in the map. -/
theorem remove_ok_spec {V I : Type} (st : Model V I) (h : Nat) (x : I)
    (st2 : Model V I) (hr : Model.remove st h = .ok (x, st2)) :
    st2.next_handle = st.next_handle ∧
    (∃ l, List.Perm l st.handles ∧ st2.handles = l.dropLast) ∧
    (∀ k v, hmGet st2.handle_to_index k = some v →
      (∃ v2, hmGet st.handle_to_index k = some v2) ∨
        k < st.handles.length) ∧
    (∃ i, hmGet st.handle_to_index h = some i) := by
  unfold Model.remove at hr
  cases hidx : hmGet st.handle_to_index h with
  | none => rw [hidx] at hr; simp at hr
  | some index =>
    rw [hidx] at hr
    simp only at hr
    -- resolve the first (visibility) branch into an intermediate state stM
    -- with the facts needed about it
    have hmid : (∃ stM,
        (if index < st.first_invisible then
          match Model.swap_by_index st index (st.first_invisible - 1) with
          | some stA =>
            some { stA with first_invisible := stA.first_invisible - 1 }
          | none => none
         else some st) = some stM ∧
        List.Perm stM.handles st.handles ∧
        stM.next_handle = st.next_handle ∧
        (∀ k v, hmGet stM.handle_to_index k = some v →
          (∃ v2, hmGet st.handle_to_index k = some v2) ∨
            k < st.handles.length)) ∨
        (if index < st.first_invisible then
          match Model.swap_by_index st index (st.first_invisible - 1) with
          | some stA =>
            some { stA with first_invisible := stA.first_invisible - 1 }
          | none => none
         else some st) = none := by
      by_cases hvis : index < st.first_invisible
      · cases hsw : Model.swap_by_index st index (st.first_invisible - 1) with
        | none =>
          right
          rw [if_pos hvis]
        | some stA =>
          left
          obtain ⟨hp, _, _, hnh, hkeys⟩ := swap_by_index_perm _ _ _ _ hsw
          exact ⟨{ stA with first_invisible := stA.first_invisible - 1 },
            by rw [if_pos hvis], hp, hnh, hkeys⟩
      · left
        exact ⟨st, by rw [if_neg hvis], List.Perm.refl _, rfl,
          fun k v hk => Or.inl ⟨v, hk⟩⟩
    rcases hmid with ⟨stM, hMeq, hMperm, hMnh, hMkeys⟩ | hnone
    · rw [hMeq] at hr
      simp only at hr
      by_cases hz : stM.instances.length = 0
      · rw [if_pos hz] at hr; simp at hr
      · rw [if_neg hz] at hr
        cases hsw2 : Model.swap_by_index stM stM.first_invisible
            (stM.instances.length - 1) with
        | none => rw [hsw2] at hr; simp at hr
        | some st3 =>
          rw [hsw2] at hr
          simp only at hr
          obtain ⟨hp3, _, _, hnh3, hkeys3⟩ := swap_by_index_perm _ _ _ _ hsw2
          cases hlast : st3.instances.getLast? with
          | none => rw [hlast] at hr; simp at hr
          | some last =>
            rw [hlast] at hr
            simp only [Out.ok.injEq, Prod.mk.injEq] at hr
            obtain ⟨hx, hst2⟩ := hr
            subst hst2
            have hMlen : stM.handles.length = st.handles.length :=
              hMperm.length_eq
            refine ⟨by simpa [hnh3] using hMnh, ⟨st3.handles,
              hp3.trans hMperm, rfl⟩, ?_, ⟨index, rfl⟩⟩
            intro k v hk
            simp only [hmGet, hmRemove] at hk
            by_cases hkh : k = h
            · rw [if_pos hkh] at hk; exact absurd hk (by simp)
            · rw [if_neg hkh] at hk
              rcases hkeys3 k v hk with ⟨v2, hv2⟩ | hlt
              · rcases hMkeys k v2 hv2 with hin | hlt2
                · exact Or.inl hin
                · exact Or.inr hlt2
              · exact Or.inr (hMlen ▸ hlt)
    · rw [hnone] at hr
      simp at hr

/-- One step of a run preserves the trace invariant. -/
theorem stepTr_inv {V I : Type} (acc acc2 : Model V I × List Nat × List Nat)
    (op : SOp I) (hinv : TraceInv acc) (hstep : stepTr acc op = some acc2) :
    TraceInv acc2 := by
  obtain ⟨⟨hnodup, hbound, hlen, hkeys⟩, hiss, hrem⟩ := hinv
  cases op with
  | ins x =>
    simp only [stepTr, Option.some.injEq] at hstep
    rw [← hstep]
    refine ⟨⟨?_, ?_, ?_, ?_⟩, ?_, ?_⟩
    · show (acc.1.handles ++ [acc.1.next_handle]).Nodup
      rw [List.nodup_append]
      refine ⟨hnodup, List.nodup_singleton _, ?_⟩
      intro a ha hb
      rw [List.mem_singleton] at hb
      subst hb
      exact absurd (hbound _ ha) (lt_irrefl _)
    · show ∀ hh ∈ acc.1.handles ++ [acc.1.next_handle],
        hh < acc.1.next_handle + 1
      intro hh hmem
      rcases List.mem_append.mp hmem with hin | hin
      · exact Nat.lt_succ_of_lt (hbound _ hin)
      · rw [List.mem_singleton] at hin
        subst hin
        exact Nat.lt_succ_self _
    · show (acc.1.handles ++ [acc.1.next_handle]).length ≤
        acc.1.next_handle + 1
      simpa using Nat.add_le_add_right hlen 1
    · show ∀ k v, hmGet (hmInsert acc.1.handle_to_index acc.1.next_handle
        acc.1.instances.length) k = some v → k < acc.1.next_handle + 1
      intro k v hk
      simp only [hmGet, hmInsert] at hk
      by_cases hkn : k = acc.1.next_handle
      · subst hkn
        exact Nat.lt_succ_self _
      · rw [if_neg hkn] at hk
        exact Nat.lt_succ_of_lt (hkeys k v hk)
    · show acc.2.1 ++ [acc.1.next_handle] = List.range (acc.1.next_handle + 1)
      rw [List.range_succ, hiss]
    · show acc.2.2 ⊆ acc.2.1 ++ [acc.1.next_handle]
      exact hrem.trans (List.subset_append_left _ _)
  | rem h =>
    simp only [stepTr] at hstep
    cases hrm : Model.remove acc.1 h with
    | panic => rw [hrm] at hstep; simp at hstep
    | err e => rw [hrm] at hstep; simp at hstep; rw [← hstep]; exact
        ⟨⟨hnodup, hbound, hlen, hkeys⟩, hiss, hrem⟩
    | ok p =>
      rw [hrm] at hstep
      simp at hstep
      obtain ⟨hnh, ⟨l, hlperm, hhandles⟩, hkeys2, ⟨i, hi⟩⟩ :=
        remove_ok_spec acc.1 h p.1 p.2 (by rw [hrm])
      rw [← hstep]
      refine ⟨⟨?_, ?_, ?_, ?_⟩, ?_, ?_⟩
      · rw [hhandles]
        exact (hlperm.symm.nodup hnodup).sublist (List.dropLast_sublist l)
      · intro hh hmem
        rw [hnh]
        rw [hhandles] at hmem
        exact hbound _ (hlperm.mem_iff.mp
          ((List.dropLast_sublist l).subset hmem))
      · rw [hnh, hhandles]
        calc l.dropLast.length ≤ l.length := (List.dropLast_sublist l).length_le
          _ = acc.1.handles.length := hlperm.length_eq
          _ ≤ acc.1.next_handle := hlen
      · intro k v hk
        rw [hnh]
        rcases hkeys2 k v hk with ⟨v2, hv2⟩ | hlt
        · exact hkeys k v2 hv2
        · exact lt_of_lt_of_le hlt hlen
      · rw [hnh]
        exact hiss
      · show acc.2.2 ++ [h] ⊆ acc.2.1
        intro a hmem
        rcases List.mem_append.mp hmem with hin | hin
        · exact hrem hin
        · rw [List.mem_singleton] at hin
          subst hin
          rw [hiss]
          exact List.mem_range.mpr (hkeys _ _ hi)

/-- Running any sequence of operations preserves the trace invariant. -/
theorem runTr_inv {V I : Type} :
    ∀ (ops : List (SOp I)) (acc acc2 : Model V I × List Nat × List Nat),
      TraceInv acc → runTr acc ops = some acc2 → TraceInv acc2 := by
  intro ops
  induction ops with
  | nil =>
    intro acc acc2 hinv hrun
    simp [runTr] at hrun
    rw [← hrun]
    exact hinv
  | cons op ops ih =>
    intro acc acc2 hinv hrun
    simp only [runTr] at hrun
    cases hstep : stepTr acc op with
    | none => rw [hstep] at hrun; simp at hrun
    | some accM =>
      rw [hstep] at hrun
      simp at hrun
      exact ih accM acc2 (stepTr_inv acc accM op hinv hstep) hrun

/-! ## Claim C6 -/

/-- C6: for every store and every sequence of insert calls (interleaved
with removes) starting from an empty store, the chronological list of issued
handles is strictly increasing — so no two live handles are ever equal, no
issued handle (in particular no removed one, since removed handles were
issued) is ever issued again, and handles increase monotonically for the
lifetime of the store; the dense handle array stays duplicate-free and holds
only issued handles. -/
theorem C6_handle_uniqueness (ops : List (SOp Nat))
    (acc : Model Nat Nat × List Nat × List Nat)
    (h : runTr (Model.empty Nat Nat, [], []) ops = some acc) :
    List.Pairwise (· < ·) acc.2.1 ∧ acc.1.handles.Nodup ∧
      acc.1.handles ⊆ acc.2.1 ∧ acc.2.2 ⊆ acc.2.1 := by
  have hinit : TraceInv
      ((Model.empty Nat Nat, [], []) : Model Nat Nat × List Nat × List Nat) := by
    refine ⟨⟨List.nodup_nil, ?_, Nat.le_refl 0, ?_⟩, rfl, ?_⟩
    · intro hh hmem
      simp [Model.empty] at hmem
    · intro k v hk
      simp [Model.empty, hmGet, hmEmpty] at hk
    · intro a hmem
      simp at hmem
  obtain ⟨⟨hnodup, hbound, _, _⟩, hiss, hrem⟩ :=
    runTr_inv ops _ acc hinit h
  refine ⟨?_, hnodup, ?_, hrem⟩
  · rw [hiss]
    exact List.pairwise_lt_range _
  · intro a hmem
    rw [hiss]
    exact List.mem_range.mpr (hbound _ hmem)

/-- C6 witness: the concrete run insert, insert, remove 0, insert. -/
theorem C6_handle_uniqueness_witness :
    List.Pairwise (· < ·) accC6.2.1 ∧ accC6.1.handles.Nodup ∧
      accC6.1.handles ⊆ accC6.2.1 ∧ accC6.2.2 ⊆ accC6.2.1 :=
  C6_handle_uniqueness opsC6 accC6 rfl

/-! ## Claim C8 -/

/-- C8: on a well-formed store, `make_visible` and `make_invisible` fail
with `InvalidHandle` exactly when the handle is absent; they are no-ops
returning success when the instance is already in the target visibility
state; and otherwise they swap the handle's instance across the
`first_invisible` boundary (the handle lands exactly on the boundary slot,
the old boundary occupant lands on the handle's old slot, every other dense
slot is untouched) and adjust the boundary by exactly one. -/
theorem C8_visibility_toggle (st : Model Nat Nat) (h : Nat)
    (hwf : WFModel st) :
    (hmGet st.handle_to_index h = none →
      Model.make_visible st h = .err InvalidHandle.mk ∧
      Model.make_invisible st h = .err InvalidHandle.mk) ∧
    (∀ i, hmGet st.handle_to_index h = some i →
      (i < st.first_invisible →
        Model.make_visible st h = .ok st ∧
        ∃ st2, Model.make_invisible st h = .ok st2 ∧
          st2.first_invisible + 1 = st.first_invisible ∧
          st2.handles[st.first_invisible - 1]? = some h ∧
          st2.handles[i]? = st.handles[st.first_invisible - 1]? ∧
          st2.instances[st.first_invisible - 1]? = st.instances[i]? ∧
          st2.instances[i]? = st.instances[st.first_invisible - 1]? ∧
          (∀ j, j ≠ i → j ≠ st.first_invisible - 1 →
            st2.handles[j]? = st.handles[j]? ∧
            st2.instances[j]? = st.instances[j]?) ∧
          st2.handles.length = st.handles.length) ∧
      (st.first_invisible ≤ i →
        Model.make_invisible st h = .ok st ∧
        ∃ st2, Model.make_visible st h = .ok st2 ∧
          st2.first_invisible = st.first_invisible + 1 ∧
          st2.handles[st.first_invisible]? = some h ∧
          st2.handles[i]? = st.handles[st.first_invisible]? ∧
          st2.instances[st.first_invisible]? = st.instances[i]? ∧
          st2.instances[i]? = st.instances[st.first_invisible]? ∧
          (∀ j, j ≠ i → j ≠ st.first_invisible →
            st2.handles[j]? = st.handles[j]? ∧
            st2.instances[j]? = st.instances[j]?) ∧
          st2.handles.length = st.handles.length)) := by
  obtain ⟨hmap, hlen, hfi⟩ := hwf
  constructor
  · intro hnone
    constructor
    · unfold Model.make_visible
      rw [hnone]
    · unfold Model.make_invisible
      rw [hnone]
  · intro i hi
    have hh : st.handles[i]? = some h := hmap h i hi
    have hilt : i < st.handles.length := (List.getElem?_eq_some.mp hh).1
    constructor
    · intro hvis
      have hfin : 1 ≤ st.first_invisible := Nat.one_le_iff_ne_zero.mpr
        (by intro hz; rw [hz] at hvis; exact Nat.not_lt_zero i hvis)
      have hj0 : st.first_invisible - 1 < st.handles.length := by omega
      constructor
      · simp only [Model.make_visible, hi]
        rw [if_pos hvis]
      · obtain ⟨st2m, heq, hsw1, hsw2, hsw3, hsw4, hsw5, hsw6, hsw7,
          hsw8, hsw9⟩ := swap_by_index_ok st i (st.first_invisible - 1)
          hilt hj0 hlen
        refine ⟨{ st2m with
            first_invisible := st2m.first_invisible - 1 }, ?_, ?_, ?_,
          ?_, ?_, ?_, ?_, ?_⟩
        · simp only [Model.make_invisible, hi]
          rw [if_neg (by omega), heq]
        · show st2m.first_invisible - 1 + 1 = st.first_invisible
          rw [hsw8]
          omega
        · show st2m.handles[st.first_invisible - 1]? = some h
          rw [hsw2, hh]
        · exact hsw1
        · show st2m.instances[st.first_invisible - 1]? = st.instances[i]?
          exact hsw4
        · exact hsw3
        · intro j hji hjb
          exact hsw5 j hji hjb
        · exact hsw6
    · intro hinvis
      have hfilt : st.first_invisible < st.handles.length :=
        lt_of_le_of_lt hinvis hilt
      constructor
      · simp only [Model.make_invisible, hi]
        rw [if_pos hinvis]
      · obtain ⟨st2m, heq, hsw1, hsw2, hsw3, hsw4, hsw5, hsw6, hsw7,
          hsw8, hsw9⟩ := swap_by_index_ok st i st.first_invisible
          hilt hfilt hlen
        refine ⟨{ st2m with
            first_invisible := st2m.first_invisible + 1 }, ?_, ?_, ?_,
          ?_, ?_, ?_, ?_, ?_⟩
        · simp only [Model.make_visible, hi]
          rw [if_neg (by omega), heq]
        · show st2m.first_invisible + 1 = st.first_invisible + 1
          rw [hsw8]
        · show st2m.handles[st.first_invisible]? = some h
          rw [hsw2, hh]
        · exact hsw1
        · show st2m.instances[st.first_invisible]? = st.instances[i]?
          exact hsw4
        · exact hsw3
        · intro j hji hjb
          exact hsw5 j hji hjb
        · exact hsw6

/-- C8 witness: on the concrete store with handle 0 visible and handle 1
invisible, `make_visible 0` is a no-op, `make_visible 1` swaps handle 1 to
the boundary slot and bumps the boundary to 2, and an unknown handle is
rejected. -/
theorem C8_visibility_toggle_witness :
    Model.make_visible stC8 0 = .ok stC8 ∧
    (∃ st2, Model.make_visible stC8 1 = .ok st2 ∧
      st2.first_invisible = 2 ∧ st2.handles[1]? = some 1) ∧
    Model.make_visible stC8 9 = .err InvalidHandle.mk := by
  have hwf : WFModel stC8 := by
    refine ⟨?_, rfl, by decide⟩
    intro h i hget
    simp only [stC8, hmGet, hmInsert, hmEmpty] at hget
    by_cases h1 : h = 1
    · subst h1
      simp at hget
      subst hget
      rfl
    · rw [if_neg h1] at hget
      by_cases h0 : h = 0
      · subst h0
        simp at hget
        subst hget
        rfl
      · rw [if_neg h0] at hget
        exact absurd hget (by simp)
  have hc := C8_visibility_toggle stC8 0 hwf
  have hc1 := C8_visibility_toggle stC8 1 hwf
  have hc9 := C8_visibility_toggle stC8 9 hwf
  refine ⟨((hc.2 0 rfl).1 (by decide)).1, ?_, (hc9.1 rfl).1⟩
  obtain ⟨st2, heq, hfi, hb, _⟩ := ((hc1.2 1 rfl).2 (by decide)).2
  exact ⟨st2, heq, hfi.trans (by rfl), hb⟩

/-! ## Claim C1 -/

/-- C1 (refuting evaluation): after insert ×3, `swap_by_handle(0,1)`,
`swap_by_handle(0,2)` the store has `handles = [1, 2, 0]` but its map sends
2 to 0 and 1 to 2, so `map[handles[1]] = map[2] = 0 ≠ 1`: the consistency
invariant `map[handles[i]] == i` fails after a mutating operation (the swap
functions insert map entries keyed by dense index instead of by handle). -/
theorem C1_map_inconsistency :
    stC1.map (fun st => decide (mapConsistent st)) = some false ∧
    stC1.map (fun st => st.handles) = some [1, 2, 0] ∧
    stC1.map (fun st => hmGet st.handle_to_index 2) = some (some 0) ∧
    stC1.map (fun st => hmGet st.handle_to_index 1) = some (some 2) := by
  decide

/-! ## Claim C2 -/

/-- C2 (refuting evaluation): on a store holding records 10, 20, 30 under
handles 0, 1, 2 (all invisible), `remove 1` returns record 10 — handle 0's
record, not handle 1's record 20 — and leaves handle 1 in the dense array
(`handles = [2, 1]`) while deleting handle 1's map entry; a missing handle
still yields `InvalidHandle`. -/
theorem C2_remove_wrong_record :
    (Model.remove stC2 1).okVal?.map (fun p => p.1) = some 10 ∧
    Model.get stC2 1 = some 20 ∧
    (Model.remove stC2 1).okVal?.map (fun p => p.2.handles) = some [2, 1] ∧
    (Model.remove stC2 1).okVal?.map
      (fun p => hmGet p.2.handle_to_index 1) = some none ∧
    (Model.remove stC2 5).isErr = true := by
  decide

/-! ## Claim C3 -/

/-- C3 (refuting evaluation): starting from an empty ledger, when
`bind_buffer_memory` / `bind_image_memory` fails after `create_buffer` /
`create_image` and `allocate` succeeded, `allocate_buffer` and
`allocate_image` propagate the error while the just-made resource (id 0)
and the just-made allocation (id 1) are still live — nothing is freed or
destroyed on the partial-failure path. -/
theorem C3_bind_failure_leaks :
    allocate_buffer
        { createBufferOk := true, createImageOk := true,
          allocateOk := true, bindOk := false }
        { nextId := 0, buffers := [], images := [], allocs := [] } =
      ({ nextId := 2, buffers := [0], images := [], allocs := [1] },
        none) ∧
    allocate_image
        { createBufferOk := true, createImageOk := true,
          allocateOk := true, bindOk := false }
        { nextId := 0, buffers := [], images := [], allocs := [] } =
      ({ nextId := 2, buffers := [], images := [0], allocs := [1] },
        none) := by
  decide

/-! ## Claim C4 -/

/-- One successful `fill` sets the capacity to the maximum of the previous
capacity and the payload size. -/
theorem fill_capacity (b : EngineBuffer) (next : Nat) (data : List Nat)
    (b2 : EngineBuffer) (n2 : Nat) (w2 : List (List Nat))
    (h : EngineBuffer.fill b next data = .ok b2 n2 w2) :
    b2.size_in_bytes = max b.size_in_bytes data.length := by
  simp only [EngineBuffer.fill] at h
  by_cases hlt : b.size_in_bytes < data.length
  · rw [if_pos hlt] at h
    cases halloc : b.allocation with
    | none => rw [halloc] at h; simp at h
    | some a =>
      rw [halloc] at h
      simp only [EngineBuffer.new, FillRes.ok.injEq] at h
      rw [← h.1]
      exact (Nat.max_eq_right (Nat.le_of_lt hlt)).symm
  · rw [if_neg hlt] at h
    cases halloc : b.allocation with
    | some a =>
      rw [halloc] at h
      simp only [FillRes.ok.injEq] at h
      rw [← h.1]
      exact (Nat.max_eq_left (Nat.not_lt.mp hlt)).symm
    | none =>
      rw [halloc] at h
      simp only [FillRes.ok.injEq] at h
      rw [← h.1]
      exact (Nat.max_eq_left (Nat.not_lt.mp hlt)).symm

/-- C4 (amended): for every sequence of successful `fill` calls on a buffer
of initial capacity `c0`, the capacity after call `k` is
`max(c0, s1, ..., sk)` — a fill larger than the capacity replaces the buffer
with one of exactly the payload's size, and the capacity never shrinks, but
it starts from the construction-time capacity rather than from 0. -/
theorem C4_capacity_monotone (ds : List (List Nat)) (b b2 : EngineBuffer)
    (next n2 : Nat) (ws : List (List Nat))
    (h : fillSeq b next ds = .ok b2 n2 ws) :
    b2.size_in_bytes =
      ds.foldl (fun c d => max c d.length) b.size_in_bytes := by
  induction ds generalizing b next b2 n2 ws with
  | nil =>
    simp only [fillSeq, FillRes.ok.injEq] at h
    rw [← h.1]
    rfl
  | cons d ds ih =>
    simp only [fillSeq] at h
    cases h1 : EngineBuffer.fill b next d with
    | panic => rw [h1] at h; simp at h
    | ok b1 n1 w1 =>
      rw [h1] at h
      simp only at h
      cases h2 : fillSeq b1 n1 ds with
      | panic => rw [h2] at h; simp at h
      | ok b3 n3 w3 =>
        rw [h2] at h
        simp only [FillRes.ok.injEq] at h
        rw [← h.1]
        have hstep := fill_capacity b next d b1 n1 w1 h1
        have hrest := ih b1 b3 n1 n3 w3 h2
        rw [hrest, hstep]
        rfl

/-- C4 counterexample: a buffer constructed with capacity 10 keeps
capacity 10 after one successful 4-byte fill, whereas the claim's formula
`max(s1..sk)` demands capacity 4. -/
theorem C4_capacity_cex :
    (EngineBuffer.fill bC4cex 2 [1, 2, 3, 4]).capacity? = some 10 ∧
    [[1, 2, 3, 4]].foldl (fun c (d : List Nat) => max c d.length) 0 = 4 ∧
    (10 : Nat) ≠ 4 := by
  decide

/-- C4 witness: filling 1 byte then 3 bytes into a capacity-2 buffer ends
at capacity `max(2, 1, 3) = 3`. -/
theorem C4_capacity_monotone_witness :
    bC4wit2.size_in_bytes =
      [[1], [2, 2, 2]].foldl (fun c d => max c d.length)
        bC4wit.size_in_bytes :=
  C4_capacity_monotone [[1], [2, 2, 2]] bC4wit bC4wit2 2 4
    [[1], [2, 2, 2]] rfl

/-! ## Claim C5 -/

/-- C5 (amended): `fill` never performs a partial copy — every successful
call either copies the whole payload in one memcpy or (exactly when the
buffer's allocation is `None`) succeeds while copying nothing at all. -/
theorem C5_no_partial_copy (b : EngineBuffer) (next : Nat) (data : List Nat)
    (b2 : EngineBuffer) (n2 : Nat) (ws : List (List Nat))
    (h : EngineBuffer.fill b next data = .ok b2 n2 ws) :
    ws = [data] ∨ (ws = [] ∧ b.allocation = none) := by
  simp only [EngineBuffer.fill] at h
  by_cases hlt : b.size_in_bytes < data.length
  · rw [if_pos hlt] at h
    cases halloc : b.allocation with
    | none => rw [halloc] at h; simp at h
    | some a =>
      rw [halloc] at h
      simp only [FillRes.ok.injEq] at h
      exact Or.inl h.2.2.symm
  · rw [if_neg hlt] at h
    cases halloc : b.allocation with
    | some a =>
      rw [halloc] at h
      simp only [FillRes.ok.injEq] at h
      exact Or.inl h.2.2.symm
    | none =>
      rw [halloc] at h
      simp only [FillRes.ok.injEq] at h
      exact Or.inr ⟨h.2.2.symm, rfl⟩

/-- C5 counterexample: a `fill` of a nonempty payload into a buffer whose
allocation is `None` (but whose capacity suffices) returns success having
copied nothing — the call neither copies all `bytes_needed` bytes nor
fails. -/
theorem C5_silent_skip_cex :
    EngineBuffer.fill bC5cex 0 [7, 7] = .ok bC5cex 0 [] ∧
    ([7, 7] : List Nat) ≠ [] := by
  decide

/-- C5 witness: a normal fill of payload `[9]` performs the single full
memcpy `[[9]]`. -/
theorem C5_no_partial_copy_witness :
    ([[9]] : List (List Nat)) = [[9]] ∨
      (([[9]] : List (List Nat)) = [] ∧ bC5wit.allocation = none) :=
  C5_no_partial_copy bC5wit 2 [9] bC5wit 2 [[9]] rfl

/-! ## Claim C9 -/

/-- C9: a store with zero visible instances records no commands at all (in
particular no zero-sized draw), and any indexed draw that `draw` does
record carries `first_invisible` (cast to u32) as its instance count —
equal to `first_invisible` itself whenever it fits in `u32`. -/
theorem C9_draw_visible_count {V I : Type} (st : Model V I) :
    (st.first_invisible = 0 → Model.draw st = []) ∧
    (∀ n c f vo fi2, Cmd.drawIndexed n c f vo fi2 ∈ Model.draw st →
      0 < st.first_invisible ∧ c = st.first_invisible % 2 ^ 32 ∧
      (st.first_invisible < 2 ^ 32 → c = st.first_invisible)) := by
  constructor
  · intro hz
    unfold Model.draw
    cases st.vertex_buffer with
    | none => rfl
    | some vb =>
      cases st.index_buffer with
      | none => rfl
      | some ib =>
        cases st.instance_buffer with
        | none => rfl
        | some inb =>
          rw [hz]
          rfl
  · intro n c f vo fi2 hmem
    unfold Model.draw at hmem
    cases h1 : st.vertex_buffer with
    | none => rw [h1] at hmem; simp at hmem
    | some vb =>
      rw [h1] at hmem
      simp only at hmem
      cases h2 : st.index_buffer with
      | none => rw [h2] at hmem; simp at hmem
      | some ib =>
        rw [h2] at hmem
        simp only at hmem
        cases h3 : st.instance_buffer with
        | none => rw [h3] at hmem; simp at hmem
        | some inb =>
          rw [h3] at hmem
          simp only at hmem
          by_cases hpos : 0 < st.first_invisible
          · rw [if_pos hpos] at hmem
            simp only [List.mem_cons, List.mem_singleton,
              Cmd.drawIndexed.injEq] at hmem
            rcases hmem with h | h | h | h | h
            · exact Cmd.noConfusion h
            · exact Cmd.noConfusion h
            · exact Cmd.noConfusion h
            · exact ⟨hpos, h.2.1, fun hfit =>
                h.2.1.trans (Nat.mod_eq_of_lt hfit)⟩
            · exact absurd h (List.not_mem_nil _)
          · rw [if_neg hpos] at hmem
            simp at hmem

/-- C9 witness: the concrete store with buffers but no visible instance
records nothing; the concrete store with one visible instance and six
indices records a draw whose instance count is its `first_invisible`. -/
theorem C9_draw_visible_count_witness :
    Model.draw stC9empty = [] ∧
    (0 < stC9draw.first_invisible ∧
      1 = stC9draw.first_invisible % 2 ^ 32 ∧
      (stC9draw.first_invisible < 2 ^ 32 →
        1 = stC9draw.first_invisible)) :=
  ⟨(C9_draw_visible_count stC9empty).1 rfl,
    (C9_draw_visible_count stC9draw).2 6 1 0 0 0 (by decide)⟩

/-! ## Claim C10 -/

/-- C10 (amended): when the buffer's allocation field is `None` and the
payload fits within `size_in_bytes`, `fill` returns success without copying
any bytes and without reporting an error, leaving the buffer unchanged. -/
theorem C10_silent_skip (b : EngineBuffer) (next : Nat) (data : List Nat)
    (hnone : b.allocation = none) (hfit : data.length ≤ b.size_in_bytes) :
    EngineBuffer.fill b next data = .ok b next [] := by
  simp only [EngineBuffer.fill]
  rw [if_neg (Nat.not_lt.mpr hfit), hnone]

/-- C10 counterexample: with the allocation `None`, a payload larger than
the capacity sends `fill` down the grow path, where it panics unwrapping
the missing allocation instead of returning success. -/
theorem C10_grow_panic_cex :
    EngineBuffer.fill bC10cex 5 [1, 2, 3] = .panic ∧
    (EngineBuffer.fill bC10cex 5 [1, 2, 3]).isOk = false := by
  decide

/-- C10 witness: a 2-byte payload into a capacity-5 buffer with no
allocation succeeds without any memcpy. -/
theorem C10_silent_skip_witness :
    EngineBuffer.fill bC10wit 9 [1, 2] = .ok bC10wit 9 [] :=
  C10_silent_skip bC10wit 9 [1, 2] rfl (by decide)

/-! ## Claim C7 -/

/-- C7 (refuting evaluation): from the consistent store `stC7`,
`swap_by_handle(0, 2)` swaps the dense arrays correctly but inserts the map
entries keyed by dense index, leaving `handles = [1, 2, 0]` with
`map[2] = 0` — `map[handles[1]] = map[2] = 0 ≠ 1`, so the map is no longer
consistent; the `InvalidHandle` and `h1 == h2` no-op behaviours do hold. -/
theorem C7_swap_by_handle_corrupts_map :
    mapConsistent stC7 ∧
    (Model.swap_by_handle stC7 0 2).okVal?.map
      (fun st => decide (mapConsistent st)) = some false ∧
    (Model.swap_by_handle stC7 0 2).okVal?.map (fun st => st.handles) =
      some [1, 2, 0] ∧
    (Model.swap_by_handle stC7 0 2).okVal?.map
      (fun st => hmGet st.handle_to_index 2) = some (some 0) ∧
    (Model.swap_by_handle stC7 0 5).isErr = true ∧
    (Model.swap_by_handle stC7 7 7).okVal?.map (fun st => st.handles) =
      some [1, 0, 2] := by
  decide

end LearningVulkan
